import Mathlib

/-!
Shallow embedding of the pholium content-management backend (Django/DRF),
covering the code paths referenced by the specification: `blog/models.py`
(`Post.save`, `PostReaction`), `blog/views.py` (`PostViewSet.publish`,
`PostViewSet.archive`, `PostViewSet.retrieve`, `CommentViewSet`,
`PostReactionViewSet`), `blog/serializers.py` (`CommentSerializer.validate`),
`core/utils/translations.py` (`_pick_language`,
`FlattenTranslatedFieldsMixin.to_representation`),
`core/utils/filters.py` (`AutoFilterMixin.filter_queryset`) and
`content/views.py` (`ContactMessageViewSet.perform_create`).

Database tables are embedded as Lean lists of rows, timestamps as natural
numbers, and each view action as a function from the old table (plus the
request data) to the new table and the HTTP response.
-/

namespace Pholium

/-! ### Python primitives -/

/-- Python truthiness of an optional string: `None` and `""` are falsy. -/
def strTruthy : Option String → Bool
  | none => false
  | some s => s ≠ ""

/-- Python truthiness of an optional integer: `None` and `0` are falsy. -/
def natTruthy : Option Nat → Bool
  | none => false
  | some n => n ≠ 0

/-- Python `a or b` on optional strings (first truthy operand, else `b`). -/
def pyOrStr (a b : Option String) : Option String :=
  if strTruthy a then a else b

/-- Counts the maximal runs of non-whitespace characters; `inWord` records
whether the previous character was part of a word. -/
def countWordsChars : List Char → Bool → Nat
  | [], _ => 0
  | c :: cs, inWord =>
    if c.isWhitespace then countWordsChars cs false
    else (if inWord then 0 else 1) + countWordsChars cs true

/-- Python `len(s.split())`: the number of maximal runs of non-whitespace
characters in `s` (splitting without an argument drops empty chunks). -/
def countWords (s : String) : Nat :=
  countWordsChars s.data false

/-- The characters of `s` strictly before the first occurrence of `sep`
(all of `s` when `sep` does not occur): Python `s.split(sep)[0]` for a
one-character separator. -/
def takeUntilChar (sep : Char) : List Char → List Char
  | [] => []
  | c :: cs => if c = sep then [] else c :: takeUntilChar sep cs

/-- Python `s.split(sep)[0]` for a one-character separator string. -/
def strUntil (sep : Char) (s : String) : String :=
  String.mk (takeUntilChar sep s.data)

/-- Python `s.startswith(pre)`. -/
def strStartsWith (s pre : String) : Bool :=
  pre.data.isPrefixOf s.data

/-- Python `s.lower()` on the ASCII language codes and parameter values the
code handles. -/
def strLower (s : String) : String :=
  String.mk (s.data.map Char.toLower)

/-- Python `s[:n]`: the first `n` characters of `s`. -/
def strTake (s : String) (n : Nat) : String :=
  String.mk (s.data.take n)

/-- Python `round` on an exact rational: round to the nearest integer with
ties going to the even integer (banker's rounding).  `round(words / 200)` in
`Post.save` is this function applied to the exact quotient: for every word
count below `2 ^ 43` the IEEE-754 quotient `words / 200` is close enough to
the exact rational that both round identically, and the tie values
`m + 1 / 2` are represented exactly. -/
def roundHalfEven (x : ℚ) : ℤ :=
  if x - ⌊x⌋ < 1 / 2 then ⌊x⌋
  else if 1 / 2 < x - ⌊x⌋ then ⌊x⌋ + 1
  else if ⌊x⌋ % 2 = 0 then ⌊x⌋ else ⌊x⌋ + 1

/-! ### Blog data model (`blog/models.py`) -/

/-- `PostStatus` text choices. -/
inductive PostStatus
  | draft
  | scheduled
  | published
  | archived
deriving DecidableEq, Repr

/-- `PostVisibility` text choices (`private` is a Lean keyword, hence `priv`;
`public` becomes `pub`). -/
inductive PostVisibility
  | pub
  | unlisted
  | priv
deriving DecidableEq, Repr

/-- One row of the `Post` table.  `body` is the value of
`safe_translation_getter("body", any_language=True)`: the body text of some
translation of the post, or `none` when the post has no translation at all.
Timestamps (`published_at`, and the `now` arguments below) are modelled as
natural numbers. -/
structure Post where
  pk : Nat
  author : Option Nat
  category : Option Nat
  series : Option Nat
  status : PostStatus
  visibility : PostVisibility
  published_at : Option Nat
  allow_comments : Bool
  is_pinned : Bool
  reading_time : Nat
  view_count : Nat
  body : Option String
deriving DecidableEq, Repr

/-- `Post.save` (`blog/models.py` lines 293-301): auto-set `published_at`
when the status is published and no date is set, then recompute
`reading_time` from the body word count (`max(1, round(words / 200)) if
words else 0`).  `now` stands for `timezone.now()`. -/
def Post.save (p : Post) (now : Nat) : Post :=
  let p1 :=
    if p.status = PostStatus.published ∧ p.published_at = none then
      { p with published_at := some now }
    else p
  let words := countWords (p1.body.getD "")
  { p1 with
    reading_time :=
      if words ≠ 0 then (max 1 (roundHalfEven ((words : ℚ) / 200))).toNat
      else 0 }

/-! ### Post actions (`blog/views.py`) -/

/-- HTTP response statuses produced by the embedded views. -/
inductive HttpStatus
  | ok200
  | created201
  | badRequest400
  | forbidden403
  | notFound404
deriving DecidableEq, Repr

/-- The mutation of `PostViewSet.publish` (`blog/views.py` lines 128-131):
set the status to published, fill `published_at` when falsy, save. -/
def publishSaved (post : Post) (now : Nat) : Post :=
  let p1 := { post with status := PostStatus.published }
  let p2 :=
    if p1.published_at = none then { p1 with published_at := some now }
    else p1
  Post.save p2 now

/-- `PostViewSet.publish` (`blog/views.py` lines 116-135).  `get_object`
fetches the post by primary key (404 when absent); an already-published post
is rejected with HTTP 400 and nothing is written; otherwise the post is
mutated, saved and returned with HTTP 200. -/
def publishAction (db : List Post) (pk now : Nat) : List Post × HttpStatus :=
  match db.find? (fun p => p.pk = pk) with
  | none => (db, HttpStatus.notFound404)
  | some post =>
    if post.status = PostStatus.published then
      (db, HttpStatus.badRequest400)
    else
      (db.map (fun q => if q.pk = pk then publishSaved post now else q),
       HttpStatus.ok200)

/-- `PostViewSet.archive` (`blog/views.py` lines 137-145): unconditionally
set the status to archived and save. -/
def archiveAction (db : List Post) (pk now : Nat) : List Post × HttpStatus :=
  match db.find? (fun p => p.pk = pk) with
  | none => (db, HttpStatus.notFound404)
  | some post =>
    let saved := Post.save { post with status := PostStatus.archived } now
    (db.map (fun q => if q.pk = pk then saved else q), HttpStatus.ok200)

/-- `PostViewSet.retrieve` (`blog/views.py` lines 72-89): a direct row
update sets `view_count` to `instance.view_count + 1`, the instance is
refreshed, and any exception in that block is logged and swallowed
(`updateFails` selects the exception path); the serialized instance is
returned with HTTP 200 either way. -/
def retrieveAction (db : List Post) (pk : Nat) (updateFails : Bool) :
    List Post × HttpStatus × Option Post :=
  match db.find? (fun p => p.pk = pk) with
  | none => (db, HttpStatus.notFound404, none)
  | some post =>
    if updateFails then
      (db, HttpStatus.ok200, some post)
    else
      let db1 := db.map (fun q =>
        if q.pk = pk then { q with view_count := post.view_count + 1 } else q)
      (db1, HttpStatus.ok200, some { post with view_count := post.view_count + 1 })

/-! ### Reactions (`blog/models.py` `PostReaction`, `blog/views.py`
`PostReactionViewSet`) -/

/-- One row of the `PostReaction` table.  The model carries a unique
constraint on `(post, user, reaction)` (`unique_user_post_reaction`). -/
structure ReactionRow where
  post : Nat
  user : Nat
  reaction : String
  created_at : Nat
deriving DecidableEq, Repr

/-- The predicate of `PostReaction.objects.get(post_id=..., user=...,
reaction=...)` and of the unique constraint. -/
def reactionMatches (postId userId : Nat) (rtype : String) (r : ReactionRow) : Bool :=
  r.post = postId && r.user = userId && r.reaction = rtype

/-- `ReactionType` choices validated by `PostReactionSerializer.validate_reaction`. -/
def reactionTypes : List String := ["like", "love", "clap", "fire", "wow"]

/-- Outcome of the `toggle` action, pairing the HTTP status with the `added`
flag of the response body. -/
inductive ToggleOutcome
  /-- HTTP 200 with body `added: false`. -/
  | removed200
  /-- HTTP 201 with body `added: true`. -/
  | added201
  /-- HTTP 400: `post` or `reaction` missing from the payload. -/
  | missingParams400
  /-- HTTP 400: serializer validation failed (unknown reaction type,
  nonexistent post, or a missing or unknown `user` payload field). -/
  | invalid400
  /-- `MultipleObjectsReturned` escapes the `except DoesNotExist` handler:
  unreachable while the unique constraint holds. -/
  | multipleError
deriving DecidableEq, Repr

/-- `PostReactionSerializer`'s `user` field (`blog/serializers.py` lines
195-210): `user` is listed in `fields` and not in `read_only_fields`, and
the model foreign key is non-null with no default, so the generated
primary-key related field is required and writable: `is_valid` demands a
`user` key naming an existing user, even though `perform_create` later
overrides its value with `request.user`. -/
def serializerUserValid (users : List Nat) (userField : Option Nat) : Bool :=
  match userField with
  | none => false
  | some w => users.contains w

/-- `PostReactionViewSet.toggle` (`blog/views.py` lines 234-267).  `posts`
and `users` are the existing post and user primary keys (the serializer's
related-field validation), `db` the reaction table, `userId` the
authenticated caller, and `postId`, `rtype`, `userField` the request
payload (`request.data.get` yields `none` when absent, and `0` and `""`
are falsy).  `objects.get` finds the unique row matching the calling user
(`DoesNotExist` on zero matches falls through to the create branch);
`delete` removes that row.  The create branch runs
`is_valid(raise_exception=True)` — which validates the reaction choice,
the `post` key and the required writable `user` key — and only then
`serializer.save(user=request.user)`, which discards the payload's user
value in favour of the caller. -/
def toggleAction (posts users : List Nat) (db : List ReactionRow)
    (userId : Nat) (postId : Option Nat) (rtype : Option String)
    (userField : Option Nat) (now : Nat) :
    List ReactionRow × ToggleOutcome :=
  if ¬ (natTruthy postId ∧ strTruthy rtype) then (db, ToggleOutcome.missingParams400)
  else
    let pid := postId.getD 0
    let rt := rtype.getD ""
    match db.filter (reactionMatches pid userId rt) with
    | [] =>
      if rt ∈ reactionTypes ∧ pid ∈ posts ∧
          serializerUserValid users userField = true then
        (db ++ [⟨pid, userId, rt, now⟩], ToggleOutcome.added201)
      else (db, ToggleOutcome.invalid400)
    | [_] => (db.eraseP (reactionMatches pid userId rt), ToggleOutcome.removed200)
    | _ :: _ :: _ => (db, ToggleOutcome.multipleError)

/-- The invariant of the `unique_user_post_reaction` constraint: at most one
reaction row per `(post, user, reaction)` triple. -/
def atMostOnePerTriple (db : List ReactionRow) : Prop :=
  ∀ p u t, (db.filter (reactionMatches p u t)).length ≤ 1

/-- A caller of the reaction endpoints (`request.user`). -/
structure ReactionUser where
  id : Nat
  is_staff : Bool
deriving DecidableEq, Repr

/-- `PostReactionViewSet.get_queryset` (`blog/views.py` lines 223-229):
non-staff callers see only their own reactions. -/
def reactionVisibleQueryset (db : List ReactionRow) (u : ReactionUser) :
    List ReactionRow :=
  if u.is_staff then db else db.filter (fun r => r.user = u.id)

/-! ### Comments (`blog/serializers.py` `CommentSerializer.validate`,
`blog/views.py` `CommentViewSet.perform_create`) -/

/-- A stored `Comment` row (the fields the claims are about). -/
structure StoredComment where
  post : Nat
  user : Option Nat
  guest_name : String
  guest_email : String
  content : String
  is_approved : Bool
  ip_address : String
  user_agent : String
deriving DecidableEq, Repr

/-- `CommentSerializer.validate` (`blog/serializers.py` lines 173-189):
reject when neither `user` nor `guest_name` is truthy; then reject when
`user` is falsy and `guest_email` is falsy.  An absent text field and the
empty string are both falsy, so both are modelled as `""`. -/
def commentValidate (user : Option Nat) (guest_name guest_email : String) :
    Except String Unit :=
  if user = none ∧ guest_name = "" then
    Except.error "Either user or guest_name must be provided."
  else if user = none ∧ guest_email = "" then
    Except.error "Guest email is required for anonymous comments."
  else Except.ok ()

/-- `CommentViewSet.get_client_ip` (`blog/views.py` lines 178-184): the
first comma-separated entry of `X-Forwarded-For` when that header is
truthy, else `REMOTE_ADDR`. -/
def clientIp (xff : Option String) (remote : String) : String :=
  match xff with
  | some s => if s ≠ "" then strUntil (Char.ofNat 44) s else remote
  | none => remote

/-- `CommentViewSet.perform_create` composed with serializer validation
(`blog/views.py` lines 166-184): validate the payload, then save with
`ip_address` from `get_client_ip`, `user_agent` truncated to 300
characters, and `is_approved=False`. -/
def commentCreate (post : Nat) (user : Option Nat)
    (guest_name guest_email content : String) (xff : Option String)
    (remote ua : String) : Except String StoredComment :=
  match commentValidate user guest_name guest_email with
  | Except.error e => Except.error e
  | Except.ok _ =>
    Except.ok
      { post := post
        user := user
        guest_name := guest_name
        guest_email := guest_email
        content := content
        is_approved := false
        ip_address := clientIp xff remote
        user_agent := strTake ua 300 }

/-! ### Translation negotiation (`core/utils/translations.py`) -/

/-- `_normalize_lang`: `(code or "").lower().replace("_", "-")` (character
95 is the underscore, 45 the hyphen). -/
def normalizeLang (code : Option String) : String :=
  String.mk (((code.getD "").data.map Char.toLower).map
    (fun c => if c = Char.ofNat 95 then Char.ofNat 45 else c))

/-- The language-bearing parts of a DRF request, as read by
`_pick_language`: the `lang` query parameter, the `X-Language` header and
the result of `get_language_from_request` (framework accept-language
detection). -/
structure ApiRequest where
  queryLang : Option String
  headerLang : Option String
  acceptLang : Option String
deriving Repr

/-- The request-derived language of `_pick_language` lines 21-24:
`request.query_params.get("lang") or request.headers.get("X-Language")`,
falling back to `get_language_from_request(request)` when that is falsy. -/
def requestedLang (req : Option ApiRequest) : Option String :=
  match req with
  | none => none
  | some r =>
    let l := pyOrStr r.queryLang r.headerLang
    if strTruthy l then l else r.acceptLang

/-- A translatable entity instance as seen by the translation layer:
`languages` is `get_available_languages()`, `fieldNames` is
`_parler_meta.get_all_fields()`, and `value lang f` is
`getattr(instance, f, None)` under `switch_language(instance, lang)`. -/
structure TransInstance where
  languages : List String
  fieldNames : List String
  value : String → String → Option String

/-- The normalized available-language set of `_pick_language` line 26,
modelled as a duplicate-free list that keeps the first occurrence of each
normalized code (`next(iter(available), None)` then becomes `head?`). -/
def availableLangs (inst : TransInstance) : List String :=
  (inst.languages.map (fun c => normalizeLang (some c))).dedup

/-- `_pick_language` (`core/utils/translations.py` lines 18-44).
`defaultLang` models `settings.PARLER_DEFAULT_LANGUAGE_CODE` (falling back
to `settings.LANGUAGE_CODE`). -/
def pickLanguage (req : Option ApiRequest) (inst : TransInstance)
    (defaultLang : String) : Option String :=
  let available := availableLangs inst
  let lang := normalizeLang (requestedLang req)
  if available.contains lang then some lang
  else if lang.data.contains (Char.ofNat 45) ∧
      available.contains (strUntil (Char.ofNat 45) lang) then
    some (strUntil (Char.ofNat 45) lang)
  else
    let d := normalizeLang (some defaultLang)
    if available.contains d then some d
    else available.head?

/-- `FlattenTranslatedFieldsMixin.to_representation`
(`core/utils/translations.py` lines 128-146): drop the `translations` key
from the base representation, and when a language was negotiated, set each
translated field name to its value in that language (entries appended on
the right shadow earlier ones, like dict assignment). -/
def flattenRepresentation (base : List (String × Option String))
    (req : Option ApiRequest) (inst : TransInstance) (defaultLang : String) :
    List (String × Option String) :=
  let data := base.filter (fun kv => kv.1 ≠ "translations")
  match pickLanguage req inst defaultLang with
  | none => data
  | some lang => data ++ inst.fieldNames.map (fun f => (f, inst.value lang f))

/-! ### Auto-filter translation scoping (`core/utils/filters.py`) -/

/-- One row of a parler translation side-table: its `language_code` column
plus the remaining translated columns as name-value pairs. -/
structure TransRow where
  language_code : String
  columns : List (String × String)
deriving DecidableEq, Repr

/-- An owner row joined with its translation side-table rows. -/
structure OwnerRow where
  pk : Nat
  translations : List TransRow
deriving DecidableEq, Repr

/-- `str(request.query_params.get(name, "")).lower() in ("true", "1",
"yes")` (`filter_queryset` lines 87-89). -/
def truthyParam (params : List (String × String)) (name : String) : Bool :=
  let v := strLower ((params.lookup name).getD "")
  v = "true" ∨ v = "1" ∨ v = "yes"

/-- `any(k.startswith("translations__language_code") for k in
query_params)` (`filter_queryset` lines 91-94). -/
def langOverridden (params : List (String × String)) : Bool :=
  params.any (fun kv => strStartsWith kv.1 "translations__language_code")

/-- A `translations__...` filter key other than
`translations__language_code...` is present (`filter_queryset` lines
96-107). -/
def hasTranslationFilter (params : List (String × String)) : Bool :=
  params.any (fun kv =>
    strStartsWith kv.1 "translations__" ∧
    ¬ strStartsWith kv.1 "translations__language_code")

/-- The framework's join semantics for a filter on the translation
side-table: the owner row appears once per matching translation row (the
row duplication the existence rewrite guards against).  Modelled from the
ORM semantics that `super().filter_queryset` delegates to. -/
def joinFilterRows (owners : List OwnerRow) (m : TransRow → Bool) :
    List OwnerRow :=
  owners.flatMap (fun o => (o.translations.filter m).map (fun _ => o))

/-- `AutoFilterMixin.filter_queryset` (`core/utils/filters.py` lines
80-135) for a translatable model.  `m` is the conjunction of the parsed
`translations__...` lookups applied to one translation row, and
`currentLang` is `get_language()` (the request's negotiated language).
When a translation filter is present and neither the `all_languages`
parameter nor an explicit `translations__language_code` filter is given,
an existence subquery scoped to `currentLang` is added and the final
queryset is made distinct. -/
def filterQuerysetT (params : List (String × String)) (currentLang : String)
    (m : TransRow → Bool) (owners : List OwnerRow) : List OwnerRow :=
  let allLanguages := truthyParam params "all_languages"
  let overridden := langOverridden params
  let hasTF := hasTranslationFilter params
  let applyExists := hasTF ∧ ¬ allLanguages ∧ ¬ overridden
  let owners1 :=
    if applyExists then
      owners.filter (fun o =>
        o.translations.any (fun t => t.language_code = currentLang ∧ m t))
    else owners
  let rows := if hasTF then joinFilterRows owners1 m else owners1
  if applyExists then rows.dedup else rows

/-! ### Contact messages (`content/views.py`) -/

/-- A stored `ContactMessage` row. -/
structure ContactMessage where
  pk : Nat
  name : String
  email : String
  subject : String
  message : String
deriving DecidableEq, Repr

/-- A user account as read by `_send_notification_email`. -/
structure Account where
  is_superuser : Bool
  is_active : Bool
  email : Option String
deriving DecidableEq, Repr

/-- The recipient list of `_send_notification_email` (`content/views.py`
lines 69-73): active superusers with a non-null, non-empty email. -/
def superuserEmails (users : List Account) : List String :=
  ((users.filter (fun u =>
      u.is_superuser && u.is_active && u.email ≠ none && u.email ≠ some "")).map
    (fun u => u.email.getD ""))

/-- How the notification email side effect ended. -/
inductive EmailAttempt
  /-- `EMAIL_HOST` falsy: the email is never attempted. -/
  | notConfigured
  /-- Attempted, but no superuser recipients: returns without sending. -/
  | noRecipients
  /-- The email was sent. -/
  | sent
  /-- `email.send` raised and the exception was swallowed by the bare
  `except` in `perform_create`. -/
  | failedSwallowed
deriving DecidableEq, Repr

/-- `ContactMessageViewSet.perform_create` (`content/views.py` lines
56-64): the row is saved first; the notification is attempted only when
`EMAIL_HOST` is truthy, and any exception it raises is swallowed
(`sendRaises` selects that path).  The creation response is HTTP 201 in
every case. -/
def contactPerformCreate (db : List ContactMessage) (msg : ContactMessage)
    (emailHost : String) (users : List Account) (sendRaises : Bool) :
    List ContactMessage × EmailAttempt × HttpStatus :=
  let db1 := db ++ [msg]
  if emailHost = "" then (db1, EmailAttempt.notConfigured, HttpStatus.created201)
  else if superuserEmails users = [] then
    (db1, EmailAttempt.noRecipients, HttpStatus.created201)
  else if sendRaises then
    (db1, EmailAttempt.failedSwallowed, HttpStatus.created201)
  else (db1, EmailAttempt.sent, HttpStatus.created201)

/-! ### Helper lemmas -/

/-- Saving never changes the body text. -/
theorem save_body (p : Post) (now : Nat) : (Post.save p now).body = p.body := by
  simp only [Post.save]
  split <;> rfl

/-- The reading time stored by `Post.save`, as a function of the body. -/
theorem save_reading_time (p : Post) (now : Nat) :
    (Post.save p now).reading_time =
      if countWords (p.body.getD "") ≠ 0 then
        (max 1 (roundHalfEven ((countWords (p.body.getD "") : ℚ) / 200))).toNat
      else 0 := by
  simp only [Post.save]
  split <;> rfl

/-- Banker's rounding of `n / 200` computed with natural-number division:
round down below the midpoint remainder `100`, up above it, and to the even
quotient at the midpoint. -/
theorem roundHalfEven_natDiv200 (n : Nat) :
    roundHalfEven ((n : ℚ) / 200) =
      ((n / 200 : Nat) : ℤ) +
        (if n % 200 < 100 then 0
         else if 100 < n % 200 then 1
         else if (n / 200 : Nat) % 2 = 0 then 0 else 1) := by
  have h200 : (0 : ℚ) < 200 := by norm_num
  have hfloor : ⌊(n : ℚ) / 200⌋ = ((n / 200 : Nat) : ℤ) := by
    rw [Int.floor_eq_iff]
    constructor
    · rw [le_div_iff₀ h200]
      exact_mod_cast Nat.div_mul_le_self n 200
    · rw [div_lt_iff₀ h200]
      have : n < (n / 200 + 1) * 200 := by omega
      exact_mod_cast this
  have hsub : (n : ℚ) / 200 - (((n / 200 : Nat) : ℤ) : ℚ) =
      ((n % 200 : Nat) : ℚ) / 200 := by
    have hmod : ((n : ℚ)) = 200 * ((n / 200 : Nat) : ℚ) + ((n % 200 : Nat) : ℚ) := by
      exact_mod_cast (Nat.div_add_mod n 200).symm
    rw [Int.cast_natCast, hmod]
    ring
  have hlo : ((n % 200 : Nat) : ℚ) / 200 < 1 / 2 ↔ n % 200 < 100 := by
    rw [div_lt_div_iff₀ h200 (by norm_num)]
    constructor
    · intro h
      have : ((n % 200 : Nat) : ℚ) < 100 := by linarith
      exact_mod_cast this
    · intro h
      have : ((n % 200 : Nat) : ℚ) < 100 := by exact_mod_cast h
      linarith
  have hhi : 1 / 2 < ((n % 200 : Nat) : ℚ) / 200 ↔ 100 < n % 200 := by
    rw [div_lt_div_iff₀ (by norm_num) h200]
    constructor
    · intro h
      have : (100 : ℚ) < ((n % 200 : Nat) : ℚ) := by linarith
      exact_mod_cast this
    · intro h
      have : (100 : ℚ) < ((n % 200 : Nat) : ℚ) := by exact_mod_cast h
      linarith
  have hpar : (((n / 200 : Nat) : ℤ) % 2 = 0) ↔ ((n / 200 : Nat) % 2 = 0) := by
    omega
  simp only [roundHalfEven]
  rw [hfloor, hsub]
  by_cases h1 : n % 200 < 100
  · rw [if_pos (hlo.mpr h1), if_pos h1]
    ring
  · rw [if_neg (fun hc => h1 (hlo.mp hc)), if_neg h1]
    by_cases h2 : 100 < n % 200
    · rw [if_pos (hhi.mpr h2), if_pos h2]
    · rw [if_neg (fun hc => h2 (hhi.mp hc)), if_neg h2]
      by_cases h3 : (n / 200 : Nat) % 2 = 0
      · rw [if_pos (hpar.mpr h3), if_pos h3]
        ring
      · rw [if_neg (fun hc => h3 (hpar.mp hc)), if_neg h3]

/-- Saving never changes the status. -/
theorem save_status (p : Post) (now : Nat) : (Post.save p now).status = p.status := by
  simp only [Post.save]
  split <;> rfl

/-- The publish timestamp stored by `Post.save`. -/
theorem save_published_at (p : Post) (now : Nat) :
    (Post.save p now).published_at =
      if p.status = PostStatus.published ∧ p.published_at = none then some now
      else p.published_at := by
  simp only [Post.save]
  split <;> simp_all

/-- The post written by the publish action is published, and its timestamp
is the old one when that was set, else `now`. -/
theorem publishSaved_spec (p : Post) (now : Nat) :
    (publishSaved p now).status = PostStatus.published ∧
    (p.published_at = none → (publishSaved p now).published_at = some now) ∧
    (∀ t, p.published_at = some t → (publishSaved p now).published_at = some t) := by
  refine ⟨?_, ?_, ?_⟩
  · simp only [publishSaved]
    split <;> rw [save_status]
  · intro h
    simp only [publishSaved]
    rw [if_pos h, save_published_at]
    split <;> rfl
  · intro t ht
    simp only [publishSaved]
    rw [if_neg (show ¬ (p.published_at = none) by simp [ht]),
      save_published_at, if_neg (show ¬ (PostStatus.published =
        PostStatus.published ∧ p.published_at = none) by simp [ht])]
    exact ht

/-! ### Claims -/

/-- C1: for every post save, the stored `reading_time` equals
`max(1, round(word_count / 200))` when the body's word count is positive
and `0` when it is zero, where the word count is the number of
whitespace-separated words of the post body and `round` is round half to
even (Python `round`). -/
theorem reading_time_formula (p : Post) (now : Nat) :
    (0 < countWords (p.body.getD "") →
      ((Post.save p now).reading_time : ℤ) =
        max 1 (roundHalfEven ((countWords (p.body.getD "") : ℚ) / 200))) ∧
    (countWords (p.body.getD "") = 0 → (Post.save p now).reading_time = 0) := by
  constructor
  · intro h
    rw [save_reading_time, if_pos (Nat.pos_iff_ne_zero.mp h)]
    exact Int.toNat_of_nonneg (le_trans (by norm_num) (le_max_left 1 _))
  · intro h
    rw [save_reading_time, if_neg (fun hc => hc h)]

/-- Witness for C1: a three-word body gives reading time 1, an empty body
gives 0. -/
theorem reading_time_formula_witness :
    (0 < countWords ((Post.mk 1 none none none PostStatus.draft
        PostVisibility.pub none true false 0 0
        (some "alpha beta gamma")).body.getD "") ∧
      ((Post.save (Post.mk 1 none none none PostStatus.draft
          PostVisibility.pub none true false 0 0
          (some "alpha beta gamma")) 5).reading_time : ℤ) =
        max 1 (roundHalfEven ((countWords ((Post.mk 1 none none none
          PostStatus.draft PostVisibility.pub none true false 0 0
          (some "alpha beta gamma")).body.getD "") : ℚ) / 200))) ∧
    (Post.save (Post.mk 1 none none none PostStatus.draft
        PostVisibility.pub none true false 0 0 none) 5).reading_time = 0 := by
  refine ⟨⟨by decide, ?_⟩, ?_⟩
  · exact (reading_time_formula (Post.mk 1 none none none PostStatus.draft
      PostVisibility.pub none true false 0 0 (some "alpha beta gamma")) 5).1
      (by decide)
  · exact (reading_time_formula (Post.mk 1 none none none PostStatus.draft
      PostVisibility.pub none true false 0 0 none) 5).2 (by decide)

/-- C2: saving a post that is published and has no publish time assigns
`now` to `published_at`; saving a post whose `published_at` is already set
never changes it. -/
theorem publish_timestamp_on_save (p : Post) (now : Nat) :
    (p.status = PostStatus.published → p.published_at = none →
      (Post.save p now).published_at = some now) ∧
    (∀ t, p.published_at = some t → (Post.save p now).published_at = some t) := by
  constructor
  · intro h1 h2
    rw [save_published_at, if_pos ⟨h1, h2⟩]
  · intro t ht
    rw [save_published_at, if_neg (by simp [ht])]
    exact ht

/-- Witness for C2: saving a freshly published post stamps it with `now`;
saving an already-stamped post keeps the old stamp. -/
theorem publish_timestamp_on_save_witness :
    (Post.save (Post.mk 1 none none none PostStatus.published
      PostVisibility.pub none true false 0 0 none) 9).published_at = some 9 ∧
    (Post.save (Post.mk 1 none none none PostStatus.published
      PostVisibility.pub (some 3) true false 0 0 none) 9).published_at = some 3 := by
  constructor
  · exact (publish_timestamp_on_save (Post.mk 1 none none none
      PostStatus.published PostVisibility.pub none true false 0 0 none) 9).1
      rfl rfl
  · exact (publish_timestamp_on_save (Post.mk 1 none none none
      PostStatus.published PostVisibility.pub (some 3) true false 0 0 none) 9).2
      3 rfl

/-- C3: the publish action returns HTTP 400 and leaves the table unchanged
when the post is already published; otherwise it succeeds, writes back a
post whose status is published and whose `published_at` is `now` when it
was unset and unchanged when set; the archive action unconditionally sets
the status to archived regardless of the current status. -/
theorem publish_archive_actions (db : List Post) (pk now : Nat) (p : Post)
    (hfind : db.find? (fun q => q.pk = pk) = some p) :
    (p.status = PostStatus.published →
      publishAction db pk now = (db, HttpStatus.badRequest400)) ∧
    (p.status ≠ PostStatus.published →
      (publishAction db pk now).2 = HttpStatus.ok200 ∧
      ∃ saved,
        (publishAction db pk now).1 =
          db.map (fun q => if q.pk = pk then saved else q) ∧
        saved.status = PostStatus.published ∧
        (p.published_at = none → saved.published_at = some now) ∧
        (∀ t, p.published_at = some t → saved.published_at = some t)) ∧
    ((archiveAction db pk now).2 = HttpStatus.ok200 ∧
      ∃ arch,
        (archiveAction db pk now).1 =
          db.map (fun q => if q.pk = pk then arch else q) ∧
        arch.status = PostStatus.archived) := by
  refine ⟨?_, ?_, ?_, ?_⟩
  · intro h
    simp [publishAction, hfind, h]
  · intro h
    refine ⟨by simp [publishAction, hfind, h], publishSaved p now, ?_,
      (publishSaved_spec p now).1, (publishSaved_spec p now).2.1,
      (publishSaved_spec p now).2.2⟩
    simp [publishAction, hfind, h]
  · simp [archiveAction, hfind]
  · refine ⟨Post.save { p with status := PostStatus.archived } now, ?_, ?_⟩
    · simp [archiveAction, hfind]
    · rw [save_status]

/-- Witness for C3: publishing a published post is rejected without
touching the table; publishing a draft and archiving it succeed. -/
theorem publish_archive_actions_witness :
    (publishAction [Post.mk 1 none none none PostStatus.published
        PostVisibility.pub (some 2) true false 0 0 none] 1 9 =
      ([Post.mk 1 none none none PostStatus.published PostVisibility.pub
        (some 2) true false 0 0 none], HttpStatus.badRequest400)) ∧
    (publishAction [Post.mk 1 none none none PostStatus.draft
        PostVisibility.pub none true false 0 0 none] 1 9).2 = HttpStatus.ok200 ∧
    (archiveAction [Post.mk 1 none none none PostStatus.published
        PostVisibility.pub (some 2) true false 0 0 none] 1 9).2 =
      HttpStatus.ok200 := by
  refine ⟨?_, ?_, ?_⟩
  · exact (publish_archive_actions [Post.mk 1 none none none
      PostStatus.published PostVisibility.pub (some 2) true false 0 0 none]
      1 9 (Post.mk 1 none none none PostStatus.published PostVisibility.pub
      (some 2) true false 0 0 none) (by decide)).1 rfl
  · exact ((publish_archive_actions [Post.mk 1 none none none PostStatus.draft
      PostVisibility.pub none true false 0 0 none] 1 9
      (Post.mk 1 none none none PostStatus.draft PostVisibility.pub none true
      false 0 0 none) (by decide)).2.1 (by decide)).1
  · exact (publish_archive_actions [Post.mk 1 none none none
      PostStatus.published PostVisibility.pub (some 2) true false 0 0 none]
      1 9 (Post.mk 1 none none none PostStatus.published PostVisibility.pub
      (some 2) true false 0 0 none) (by decide)).2.2.1

/-- A reaction row matching a triple has exactly the fields of that
triple. -/
theorem reactionMatches_iff (a b : Nat) (c : String) (r : ReactionRow) :
    reactionMatches a b c r = true ↔ r.post = a ∧ r.user = b ∧ r.reaction = c := by
  simp [reactionMatches, and_assoc]

/-- `contains` on a list of naturals is membership. -/
theorem natList_contains_iff {l : List Nat} {a : Nat} :
    l.contains a = true ↔ a ∈ l := by
  simp [List.contains_iff_exists_mem_beq]

/-- The toggle action preserves the unique-constraint invariant: at most
one row per `(post, user, reaction)` triple. -/
theorem toggle_preserves_unique (posts users : List Nat)
    (db : List ReactionRow) (userId : Nat) (postId : Option Nat)
    (rtype : Option String) (userField : Option Nat) (now : Nat)
    (hinv : atMostOnePerTriple db) :
    atMostOnePerTriple
      (toggleAction posts users db userId postId rtype userField now).1 := by
  have herase : ∀ q : ReactionRow → Bool,
      atMostOnePerTriple (db.eraseP q) := by
    intro q a b c
    exact le_trans (((db.eraseP_sublist).filter _).length_le) (hinv a b c)
  simp only [toggleAction]
  split
  · exact hinv
  · split
    · split
      · intro a b c
        rw [List.filter_append, List.length_append]
        rename_i hempty _
        by_cases hr : reactionMatches a b c
            ⟨postId.getD 0, userId, rtype.getD "", now⟩ = true
        · obtain ⟨h1, h2, h3⟩ := (reactionMatches_iff a b c _).mp hr
          simp only at h1 h2 h3
          subst h1; subst h2; subst h3
          rw [hempty]
          simp [reactionMatches]
        · have hone : List.filter (reactionMatches a b c)
              [(⟨postId.getD 0, userId, rtype.getD "", now⟩ : ReactionRow)] = [] := by
            simp [hr]
          rw [hone]
          simpa using hinv a b c
      · exact hinv
    · exact herase _
    · exact hinv

/-- Counterexample to C4 as stated: the claim's payload `(post: 1,
reaction: like)` carries no `user` key, so in the create branch
`is_valid(raise_exception=True)` fails on the serializer's required
writable `user` field — the first toggle from the empty table returns a
400 validation error and creates no row, not 201 with `added: true`. -/
theorem reaction_toggle_counterexample :
    toggleAction [1] [5] [] 5 (some 1) (some "like") none 10 =
      ([], ToggleOutcome.invalid400) ∧
    ToggleOutcome.invalid400 ≠ ToggleOutcome.added201 := by
  exact ⟨rfl, by decide⟩

/-- C4 (amended): toggling preserves the at-most-one-row-per-(post, user,
reaction) invariant; and for a payload that also carries the
serializer-required `user` field naming any existing user — its value is
discarded, the saved row belongs to the requesting user — two identical
toggles from a state with no matching row first add the row (HTTP 201,
`added: true`) and then remove it (HTTP 200, `added: false`), restoring
the original table. -/
theorem reaction_toggle_spec (posts users : List Nat) (db : List ReactionRow)
    (userId pid w now1 now2 : Nat) (rt : String)
    (hinv : atMostOnePerTriple db) :
    (∀ postId rtype userField now,
      atMostOnePerTriple
        (toggleAction posts users db userId postId rtype userField now).1) ∧
    (pid ≠ 0 → rt ∈ reactionTypes → pid ∈ posts → w ∈ users →
      db.filter (reactionMatches pid userId rt) = [] →
      (toggleAction posts users db userId (some pid) (some rt) (some w)
        now1).2 = ToggleOutcome.added201 ∧
      (toggleAction posts users db userId (some pid) (some rt) (some w)
        now1).1 = db ++ [⟨pid, userId, rt, now1⟩] ∧
      (toggleAction posts users
        (toggleAction posts users db userId (some pid) (some rt) (some w) now1).1
        userId (some pid) (some rt) (some w) now2).2 =
          ToggleOutcome.removed200 ∧
      (toggleAction posts users
        (toggleAction posts users db userId (some pid) (some rt) (some w) now1).1
        userId (some pid) (some rt) (some w) now2).1 = db) := by
  constructor
  · intro postId rtype userField now
    exact toggle_preserves_unique posts users db userId postId rtype
      userField now hinv
  · intro hpid hrt hpost hw hempty
    have hrtne : rt ≠ "" := by
      simp only [reactionTypes, List.mem_cons, List.not_mem_nil, or_false] at hrt
      rcases hrt with rfl | rfl | rfl | rfl | rfl <;> decide
    have htruthy : ¬ ¬ (natTruthy (some pid) ∧ strTruthy (some rt)) := by
      simp [natTruthy, strTruthy, hpid, hrtne]
    have huser : serializerUserValid users (some w) = true := by
      simp only [serializerUserValid]
      exact natList_contains_iff.mpr hw
    have hstep1 : toggleAction posts users db userId (some pid) (some rt)
        (some w) now1 =
        (db ++ [⟨pid, userId, rt, now1⟩], ToggleOutcome.added201) := by
      simp only [toggleAction, Option.getD]
      rw [if_neg htruthy, hempty]
      rw [if_pos ⟨hrt, hpost, huser⟩]
    have hrowmatch : reactionMatches pid userId rt
        (⟨pid, userId, rt, now1⟩ : ReactionRow) = true := by
      simp [reactionMatches]
    have hnomatch : ∀ x ∈ db, ¬ reactionMatches pid userId rt x = true :=
      List.filter_eq_nil_iff.mp hempty
    have hfilter2 : (db ++ [(⟨pid, userId, rt, now1⟩ : ReactionRow)]).filter
        (reactionMatches pid userId rt) = [⟨pid, userId, rt, now1⟩] := by
      rw [List.filter_append, hempty]
      simp [hrowmatch]
    have hstep2 : toggleAction posts users (db ++ [⟨pid, userId, rt, now1⟩])
        userId (some pid) (some rt) (some w) now2 =
        (db, ToggleOutcome.removed200) := by
      simp only [toggleAction, Option.getD]
      rw [if_neg htruthy]
      rw [hfilter2]
      rw [List.eraseP_append_right _ hnomatch, List.eraseP_cons_of_pos hrowmatch]
      simp
    rw [hstep1]
    exact ⟨rfl, rfl, by rw [hstep2], by rw [hstep2]⟩

/-- Witness for C4 (amended): user 5 toggling a like on post 1 twice in a
row, with payload user field naming existing user 9, first adds the row
with 201 — owned by requesting user 5, not 9 — and then removes it with
200, restoring the empty table. -/
theorem reaction_toggle_spec_witness :
    (toggleAction [1] [5, 9] [] 5 (some 1) (some "like") (some 9) 10).2 =
      ToggleOutcome.added201 ∧
    (toggleAction [1] [5, 9] [] 5 (some 1) (some "like") (some 9) 10).1 =
      [] ++ [ReactionRow.mk 1 5 "like" 10] ∧
    (toggleAction [1] [5, 9]
      (toggleAction [1] [5, 9] [] 5 (some 1) (some "like") (some 9) 10).1
      5 (some 1) (some "like") (some 9) 11).2 = ToggleOutcome.removed200 ∧
    (toggleAction [1] [5, 9]
      (toggleAction [1] [5, 9] [] 5 (some 1) (some "like") (some 9) 10).1
      5 (some 1) (some "like") (some 9) 11).1 = [] := by
  exact (reaction_toggle_spec [1] [5, 9] [] 5 1 9 10 11 "like"
    (fun a b c => by simp)).2 (by decide) (by decide) (by decide) (by decide)
    rfl

/-- Counterexample to C5 as stated: a creation request that supplies a
`user` together with `guest_name` "Bob" and no `guest_email` passes
validation and creates the comment, although the claim says every request
with a `guest_name` but no `guest_email` is rejected.  The code only
requires `guest_email` when `user` is absent. -/
theorem comment_guest_email_counterexample :
    ("Bob" ≠ "") ∧ ("" = "") ∧
    ∃ c, commentCreate 1 (some 7) "Bob" "" "hi" none "9.9.9.9" "ua" =
      Except.ok c := by
  exact ⟨by decide, rfl, ⟨_, rfl⟩⟩

/-- C5 (amended): a creation request with neither `user` nor `guest_name`
is rejected; one with no `user`, a `guest_name` and no `guest_email` is
rejected; one with both guest fields is created with `is_approved` false,
`ip_address` the first `X-Forwarded-For` entry when that header is truthy
and the remote address otherwise, and `user_agent` truncated to 300
characters. -/
theorem comment_creation_spec (post : Nat) (user : Option Nat)
    (gname gemail content : String) (xff : Option String) (remote ua : String) :
    (user = none → gname = "" →
      ∃ e, commentCreate post user gname gemail content xff remote ua =
        Except.error e) ∧
    (user = none → gname ≠ "" → gemail = "" →
      ∃ e, commentCreate post user gname gemail content xff remote ua =
        Except.error e) ∧
    (gname ≠ "" → gemail ≠ "" →
      ∃ c, commentCreate post user gname gemail content xff remote ua =
          Except.ok c ∧
        c.is_approved = false ∧
        c.user = user ∧ c.guest_name = gname ∧ c.guest_email = gemail ∧
        c.user_agent = strTake ua 300 ∧
        (∀ s, xff = some s → s ≠ "" →
          c.ip_address = strUntil (Char.ofNat 44) s) ∧
        (xff = none ∨ xff = some "" → c.ip_address = remote)) := by
  refine ⟨?_, ?_, ?_⟩
  · intro h1 h2
    subst h1; subst h2
    exact ⟨_, rfl⟩
  · intro h1 h2 h3
    subst h1; subst h3
    have hv : commentValidate none gname "" =
        Except.error "Guest email is required for anonymous comments." := by
      simp only [commentValidate]
      rw [if_neg (by simp [h2]), if_pos (by simp)]
    exact ⟨"Guest email is required for anonymous comments.",
      by simp only [commentCreate, hv]⟩
  · intro h1 h2
    have hv : commentValidate user gname gemail = Except.ok () := by
      simp only [commentValidate]
      rw [if_neg (by simp [h1]), if_neg (by simp [h2])]
    have hc : commentCreate post user gname gemail content xff remote ua =
        Except.ok ⟨post, user, gname, gemail, content, false,
          clientIp xff remote, strTake ua 300⟩ := by
      unfold commentCreate
      rw [hv]
    refine ⟨⟨post, user, gname, gemail, content, false, clientIp xff remote,
      strTake ua 300⟩, hc, rfl, rfl, rfl, rfl, rfl, ?_, ?_⟩
    · intro s hx hs
      subst hx
      simp only [clientIp]
      rw [if_pos hs]
    · intro hx
      rcases hx with h | h <;> subst h <;> simp [clientIp]

/-- Witness for C5 (amended): a guest comment without an email is rejected,
and a fully specified guest comment is created unapproved with the captured
request metadata. -/
theorem comment_creation_spec_witness :
    (∃ e, commentCreate 1 none "Bob" "" "hi" none "9.9.9.9" "ua" =
      Except.error e) ∧
    (∃ c, commentCreate 1 (some 7) "Ann" "a@x.io" "hello"
        (some "1.2.3.4,5.6.7.8") "9.9.9.9" "agent" = Except.ok c ∧
      c.is_approved = false ∧
      c.user = some 7 ∧ c.guest_name = "Ann" ∧ c.guest_email = "a@x.io" ∧
      c.user_agent = strTake "agent" 300 ∧
      (∀ s, (some "1.2.3.4,5.6.7.8" : Option String) = some s → s ≠ "" →
        c.ip_address = strUntil (Char.ofNat 44) s) ∧
      ((some "1.2.3.4,5.6.7.8" : Option String) = none ∨
        (some "1.2.3.4,5.6.7.8" : Option String) = some "" →
        c.ip_address = "9.9.9.9")) := by
  constructor
  · exact (comment_creation_spec 1 none "Bob" "" "hi" none "9.9.9.9"
      "ua").2.1 rfl (by decide) rfl
  · exact (comment_creation_spec 1 (some 7) "Ann" "a@x.io" "hello"
      (some "1.2.3.4,5.6.7.8") "9.9.9.9" "agent").2.2 (by decide) (by decide)

/-- `contains` on a list of strings is membership. -/
theorem strList_contains_iff {l : List String} {a : String} :
    l.contains a = true ↔ a ∈ l := by
  simp [List.contains_iff_exists_mem_beq]

/-- A truthy `lang` query parameter is the requested language. -/
theorem requestedLang_query (q h a : Option String) (hq : strTruthy q = true) :
    requestedLang (some ⟨q, h, a⟩) = q := by
  simp [requestedLang, pyOrStr, hq]

/-- With no truthy query parameter, a truthy `X-Language` header is the
requested language. -/
theorem requestedLang_header (q h a : Option String) (hq : strTruthy q = false)
    (hh : strTruthy h = true) :
    requestedLang (some ⟨q, h, a⟩) = h := by
  simp [requestedLang, pyOrStr, hq, hh]

/-- With neither a truthy query parameter nor header, the framework's
accept-language detection is the requested language. -/
theorem requestedLang_accept (q h a : Option String) (hq : strTruthy q = false)
    (hh : strTruthy h = false) :
    requestedLang (some ⟨q, h, a⟩) = a := by
  simp [requestedLang, pyOrStr, hq, hh]

/-- When the instance has no translation at all, no language is picked. -/
theorem pickLanguage_none_of_nil (req : Option ApiRequest)
    (inst : TransInstance) (d : String) (hnil : availableLangs inst = []) :
    pickLanguage req inst d = none := by
  simp [pickLanguage, hnil]

/-- C6: serialization picks one language by the priority
query parameter, then `X-Language` header, then framework accept-language
(whichever of these is present first is the requested language, kept when
available), then the configured default, then the first available language;
a language is always picked when the instance has any translation, and the
flattening never fails: it returns the base data when nothing is available
and one language's fields otherwise. -/
theorem translation_negotiation_spec (q h a : Option String)
    (inst : TransInstance) (d : String)
    (base : List (String × Option String)) :
    (strTruthy q = true →
      (availableLangs inst).contains (normalizeLang q) = true →
      pickLanguage (some ⟨q, h, a⟩) inst d = some (normalizeLang q)) ∧
    (strTruthy q = false → strTruthy h = true →
      (availableLangs inst).contains (normalizeLang h) = true →
      pickLanguage (some ⟨q, h, a⟩) inst d = some (normalizeLang h)) ∧
    (strTruthy q = false → strTruthy h = false →
      (availableLangs inst).contains (normalizeLang a) = true →
      pickLanguage (some ⟨q, h, a⟩) inst d = some (normalizeLang a)) ∧
    ((availableLangs inst).contains
        (normalizeLang (requestedLang (some ⟨q, h, a⟩))) = false →
      ¬ ((normalizeLang (requestedLang (some ⟨q, h, a⟩))).data.contains
            (Char.ofNat 45) = true ∧
          (availableLangs inst).contains (strUntil (Char.ofNat 45)
            (normalizeLang (requestedLang (some ⟨q, h, a⟩)))) = true) →
      (availableLangs inst).contains (normalizeLang (some d)) = true →
      pickLanguage (some ⟨q, h, a⟩) inst d = some (normalizeLang (some d))) ∧
    ((availableLangs inst).contains
        (normalizeLang (requestedLang (some ⟨q, h, a⟩))) = false →
      ¬ ((normalizeLang (requestedLang (some ⟨q, h, a⟩))).data.contains
            (Char.ofNat 45) = true ∧
          (availableLangs inst).contains (strUntil (Char.ofNat 45)
            (normalizeLang (requestedLang (some ⟨q, h, a⟩)))) = true) →
      (availableLangs inst).contains (normalizeLang (some d)) = false →
      pickLanguage (some ⟨q, h, a⟩) inst d = (availableLangs inst).head?) ∧
    (∀ l, pickLanguage (some ⟨q, h, a⟩) inst d = some l →
      l ∈ availableLangs inst) ∧
    (pickLanguage (some ⟨q, h, a⟩) inst d = none ↔ availableLangs inst = []) ∧
    (availableLangs inst = [] →
      flattenRepresentation base (some ⟨q, h, a⟩) inst d =
        base.filter (fun kv => kv.1 ≠ "translations")) ∧
    (∀ l, pickLanguage (some ⟨q, h, a⟩) inst d = some l →
      flattenRepresentation base (some ⟨q, h, a⟩) inst d =
        base.filter (fun kv => kv.1 ≠ "translations") ++
          inst.fieldNames.map (fun f => (f, inst.value l f))) := by
  refine ⟨?_, ?_, ?_, ?_, ?_, ?_, ?_, ?_, ?_⟩
  · intro hq hcont
    rw [pickLanguage, requestedLang_query q h a hq]
    rw [if_pos hcont]
  · intro hq hh hcont
    rw [pickLanguage, requestedLang_header q h a hq hh]
    rw [if_pos hcont]
  · intro hq hh hcont
    rw [pickLanguage, requestedLang_accept q h a hq hh]
    rw [if_pos hcont]
  · intro hc1 hc2 hc3
    simp only [pickLanguage]
    rw [if_neg (by rw [hc1]; decide), if_neg hc2, if_pos hc3]
  · intro hc1 hc2 hc3
    simp only [pickLanguage]
    rw [if_neg (by rw [hc1]; decide), if_neg hc2,
      if_neg (by rw [hc3]; decide)]
  · intro l hl
    simp only [pickLanguage] at hl
    split at hl
    · cases hl
      exact strList_contains_iff.mp (by assumption)
    · split at hl
      · cases hl
        rename_i hcond
        exact strList_contains_iff.mp hcond.2
      · split at hl
        · cases hl
          exact strList_contains_iff.mp (by assumption)
        · exact List.mem_of_mem_head? (by simp [hl])
  · constructor
    · intro hnone
      simp only [pickLanguage] at hnone
      split at hnone
      · cases hnone
      · split at hnone
        · cases hnone
        · split at hnone
          · cases hnone
          · exact List.head?_eq_none_iff.mp hnone
    · intro hnil
      exact pickLanguage_none_of_nil (some ⟨q, h, a⟩) inst d hnil
  · intro hnil
    rw [flattenRepresentation,
      pickLanguage_none_of_nil (some ⟨q, h, a⟩) inst d hnil]
  · intro l hl
    rw [flattenRepresentation, hl]

/-- Witness for C6: an uppercase `lang=EN` query parameter beats the header
and is normalized; with nothing requested and an unavailable default the
first available language is used; with no translations nothing is picked
and the base data is returned unchanged. -/
theorem translation_negotiation_spec_witness :
    (pickLanguage (some ⟨some "EN", some "pt-BR", none⟩)
        (TransInstance.mk ["pt-BR", "en"] ["title"] (fun _ _ => none)) "fr" =
      some (normalizeLang (some "EN"))) ∧
    (pickLanguage (some ⟨none, none, none⟩)
        (TransInstance.mk ["pt-BR", "en"] ["title"] (fun _ _ => none)) "fr" =
      (availableLangs
        (TransInstance.mk ["pt-BR", "en"] ["title"] (fun _ _ => none))).head?) ∧
    (pickLanguage (some ⟨some "EN", none, none⟩)
        (TransInstance.mk [] [] (fun _ _ => none)) "fr" = none) ∧
    (flattenRepresentation [("id", some "1"), ("translations", none)]
        (some ⟨some "EN", none, none⟩)
        (TransInstance.mk [] [] (fun _ _ => none)) "fr" =
      [("id", some "1")]) := by
  refine ⟨?_, ?_, ?_, ?_⟩
  · exact (translation_negotiation_spec (some "EN") (some "pt-BR") none
      (TransInstance.mk ["pt-BR", "en"] ["title"] (fun _ _ => none)) "fr"
      []).1 (by decide) (by decide)
  · exact (translation_negotiation_spec none none none
      (TransInstance.mk ["pt-BR", "en"] ["title"] (fun _ _ => none)) "fr"
      []).2.2.2.2.1 (by decide) (by decide) (by decide)
  · exact (translation_negotiation_spec (some "EN") none none
      (TransInstance.mk [] [] (fun _ _ => none)) "fr" []).2.2.2.2.2.2.1.mpr rfl
  · exact (translation_negotiation_spec (some "EN") none none
      (TransInstance.mk [] [] (fun _ _ => none)) "fr"
      [("id", some "1"), ("translations", none)]).2.2.2.2.2.2.2.1 rfl

/-- Membership in the join-filtered rows: the owner is kept and has at
least one translation row matching the filter (in any language). -/
theorem mem_joinFilterRows {owners : List OwnerRow} {m : TransRow → Bool}
    {o : OwnerRow} :
    o ∈ joinFilterRows owners m ↔
      o ∈ owners ∧ o.translations.filter m ≠ [] := by
  simp only [joinFilterRows, List.mem_flatMap, List.mem_map]
  constructor
  · rintro ⟨a, ha, t, ht, rfl⟩
    exact ⟨ha, fun hc => by simp [hc] at ht⟩
  · rintro ⟨ho, hne⟩
    rcases List.exists_mem_of_ne_nil _ hne with ⟨t, ht⟩
    exact ⟨o, ho, t, ht, rfl⟩

/-- C7: with a `translations__<field>` filter present and neither the
`all_languages` override nor an explicit `translations__language_code`
filter, the result of `filter_queryset` contains each owner row at most
once, and exactly the owners that have a translation row in the request's
negotiated language matching the filter. -/
theorem translated_filter_scoped (params : List (String × String))
    (currentLang : String) (m : TransRow → Bool) (owners : List OwnerRow)
    (h1 : hasTranslationFilter params = true)
    (h2 : truthyParam params "all_languages" = false)
    (h3 : langOverridden params = false) :
    (∀ o, (filterQuerysetT params currentLang m owners).count o ≤ 1) ∧
    (∀ o, o ∈ filterQuerysetT params currentLang m owners ↔
      o ∈ owners ∧
      o.translations.any
        (fun t => t.language_code = currentLang ∧ m t) = true) := by
  have happ : hasTranslationFilter params = true ∧
      ¬ truthyParam params "all_languages" = true ∧
      ¬ langOverridden params = true := ⟨h1, by simp [h2], by simp [h3]⟩
  have hred : filterQuerysetT params currentLang m owners =
      (joinFilterRows (owners.filter (fun o => o.translations.any
        (fun t => t.language_code = currentLang ∧ m t))) m).dedup := by
    simp only [filterQuerysetT]
    rw [if_pos happ, if_pos h1, if_pos happ]
  rw [hred]
  constructor
  · intro o
    exact List.nodup_iff_count_le_one.mp (List.nodup_dedup _) o
  · intro o
    rw [List.mem_dedup, mem_joinFilterRows, List.mem_filter]
    constructor
    · rintro ⟨⟨ho, hany⟩, _⟩
      exact ⟨ho, hany⟩
    · rintro ⟨ho, hany⟩
      refine ⟨⟨ho, hany⟩, ?_⟩
      rw [List.any_eq_true] at hany
      rcases hany with ⟨t, ht, hmt⟩
      rw [decide_eq_true_iff] at hmt
      intro hc
      have : t ∈ o.translations.filter m :=
        List.mem_filter.mpr ⟨ht, hmt.2⟩
      simp [hc] at this

/-- Witness for C7: one owner with an `en` and a `pt` translation row both
matched by the filter appears exactly once in the filtered queryset. -/
theorem translated_filter_scoped_witness :
    ((filterQuerysetT [("translations__name__icontains", "x")] "en"
        (fun _ => true)
        [OwnerRow.mk 1 [TransRow.mk "en" [], TransRow.mk "pt" []]]).count
      (OwnerRow.mk 1 [TransRow.mk "en" [], TransRow.mk "pt" []]) ≤ 1) ∧
    ((OwnerRow.mk 1 [TransRow.mk "en" [], TransRow.mk "pt" []]) ∈
        filterQuerysetT [("translations__name__icontains", "x")] "en"
        (fun _ => true)
        [OwnerRow.mk 1 [TransRow.mk "en" [], TransRow.mk "pt" []]] ↔
      (OwnerRow.mk 1 [TransRow.mk "en" [], TransRow.mk "pt" []]) ∈
        [OwnerRow.mk 1 [TransRow.mk "en" [], TransRow.mk "pt" []]] ∧
      (OwnerRow.mk 1 [TransRow.mk "en" [], TransRow.mk "pt" []]).translations.any
        (fun t => t.language_code = "en" ∧ (fun _ => true) t) = true) := by
  constructor
  · exact (translated_filter_scoped [("translations__name__icontains", "x")]
      "en" (fun _ => true)
      [OwnerRow.mk 1 [TransRow.mk "en" [], TransRow.mk "pt" []]]
      (by decide) (by decide) (by decide)).1
      (OwnerRow.mk 1 [TransRow.mk "en" [], TransRow.mk "pt" []])
  · exact (translated_filter_scoped [("translations__name__icontains", "x")]
      "en" (fun _ => true)
      [OwnerRow.mk 1 [TransRow.mk "en" [], TransRow.mk "pt" []]]
      (by decide) (by decide) (by decide)).2
      (OwnerRow.mk 1 [TransRow.mk "en" [], TransRow.mk "pt" []])

/-- C8: contact-message creation always stores the row and responds with
HTTP 201, whether or not the notification email is configured, has
recipients, or raises; the email is skipped exactly when outbound mail is
not configured. -/
theorem contact_message_best_effort (db : List ContactMessage)
    (msg : ContactMessage) (emailHost : String) (users : List Account)
    (sendRaises : Bool) :
    (contactPerformCreate db msg emailHost users sendRaises).1 = db ++ [msg] ∧
    (contactPerformCreate db msg emailHost users sendRaises).2.2 =
      HttpStatus.created201 ∧
    ((contactPerformCreate db msg emailHost users sendRaises).2.1 =
        EmailAttempt.notConfigured ↔ emailHost = "") := by
  simp only [contactPerformCreate]
  split_ifs with he hr hs <;> simp_all

/-- Witness for C8: with mail configured and a raising send, the message is
still stored and the response is 201. -/
theorem contact_message_best_effort_witness :
    (contactPerformCreate [] (ContactMessage.mk 1 "n" "e" "s" "m") "smtp.x"
        [Account.mk true true (some "root@x")] true).1 =
      [] ++ [ContactMessage.mk 1 "n" "e" "s" "m"] ∧
    (contactPerformCreate [] (ContactMessage.mk 1 "n" "e" "s" "m") "smtp.x"
        [Account.mk true true (some "root@x")] true).2.2 =
      HttpStatus.created201 := by
  exact ⟨(contact_message_best_effort [] (ContactMessage.mk 1 "n" "e" "s" "m")
      "smtp.x" [Account.mk true true (some "root@x")] true).1,
    (contact_message_best_effort [] (ContactMessage.mk 1 "n" "e" "s" "m")
      "smtp.x" [Account.mk true true (some "root@x")] true).2.1⟩

/-- C9: retrieving an existing post responds HTTP 200 with the post whose
view counter was bumped, and rewrites the table so that exactly the rows
with that primary key get `view_count + 1` with every other field and every
other row unchanged; when the counter update fails the table is untouched
and the response is still HTTP 200 with the post's data. -/
theorem retrieve_increments_view_count (db : List Post) (pk : Nat) (p : Post)
    (hnd : (db.map Post.pk).Nodup)
    (hfind : db.find? (fun q => q.pk = pk) = some p) :
    (retrieveAction db pk true = (db, HttpStatus.ok200, some p)) ∧
    ((retrieveAction db pk false).2.1 = HttpStatus.ok200 ∧
      (retrieveAction db pk false).2.2 =
        some { p with view_count := p.view_count + 1 } ∧
      (retrieveAction db pk false).1 =
        db.map (fun q =>
          if q.pk = pk then { q with view_count := q.view_count + 1 }
          else q)) := by
  have hpmem : p ∈ db := List.mem_of_find?_eq_some hfind
  have hppk : p.pk = pk := by
    have := List.find?_some hfind
    simpa using this
  refine ⟨by simp [retrieveAction, hfind], by simp [retrieveAction, hfind],
    by simp [retrieveAction, hfind], ?_⟩
  simp only [retrieveAction, hfind]
  refine List.map_congr_left ?_
  intro q hq
  by_cases hqpk : q.pk = pk
  · have hqp : q = p :=
      List.inj_on_of_nodup_map hnd hq hpmem (by rw [hqpk, hppk])
    subst hqp
    simp [hqpk]
  · simp [hqpk]

/-- Witness for C9: retrieving post 1 bumps only its counter; a failing
update still yields a 200 response with the stored row. -/
theorem retrieve_increments_view_count_witness :
    (retrieveAction [Post.mk 1 none none none PostStatus.published
        PostVisibility.pub (some 2) true false 1 7 (some "a")] 1 true =
      ([Post.mk 1 none none none PostStatus.published PostVisibility.pub
        (some 2) true false 1 7 (some "a")], HttpStatus.ok200,
        some (Post.mk 1 none none none PostStatus.published PostVisibility.pub
          (some 2) true false 1 7 (some "a")))) ∧
    (retrieveAction [Post.mk 1 none none none PostStatus.published
        PostVisibility.pub (some 2) true false 1 7 (some "a")] 1 false).2.2 =
      some (Post.mk 1 none none none PostStatus.published PostVisibility.pub
        (some 2) true false 1 8 (some "a")) := by
  constructor
  · exact (retrieve_increments_view_count [Post.mk 1 none none none
      PostStatus.published PostVisibility.pub (some 2) true false 1 7
      (some "a")] 1 (Post.mk 1 none none none PostStatus.published
      PostVisibility.pub (some 2) true false 1 7 (some "a"))
      (by decide) (by decide)).1
  · exact (retrieve_increments_view_count [Post.mk 1 none none none
      PostStatus.published PostVisibility.pub (some 2) true false 1 7
      (some "a")] 1 (Post.mk 1 none none none PostStatus.published
      PostVisibility.pub (some 2) true false 1 7 (some "a"))
      (by decide) (by decide)).2.2.1

/-- C10: a non-staff caller's reaction queryset contains only their own
rows, a staff caller sees the whole table, and two different non-staff
callers can never see a common reaction row. -/
theorem reaction_queryset_isolation (db : List ReactionRow)
    (u v : ReactionUser) :
    (u.is_staff = false →
      ∀ r ∈ reactionVisibleQueryset db u, r.user = u.id) ∧
    (u.is_staff = true → reactionVisibleQueryset db u = db) ∧
    (u.is_staff = false → v.is_staff = false → u.id ≠ v.id →
      ∀ r, r ∈ reactionVisibleQueryset db u →
        r ∈ reactionVisibleQueryset db v → False) := by
  refine ⟨?_, ?_, ?_⟩
  · intro hu r hr
    rw [reactionVisibleQueryset, if_neg (by simp [hu])] at hr
    exact of_decide_eq_true (List.mem_filter.mp hr).2
  · intro hu
    rw [reactionVisibleQueryset, if_pos hu]
  · intro hu hv hne r hru hrv
    rw [reactionVisibleQueryset, if_neg (by simp [hu])] at hru
    rw [reactionVisibleQueryset, if_neg (by simp [hv])] at hrv
    have h1 : r.user = u.id := of_decide_eq_true (List.mem_filter.mp hru).2
    have h2 : r.user = v.id := of_decide_eq_true (List.mem_filter.mp hrv).2
    exact hne (h1 ▸ h2)

/-- Witness for C10: with one reaction owned by user 5, non-staff user 5
sees only their own rows, staff sees all, and non-staff users 5 and 6
share no visible row. -/
theorem reaction_queryset_isolation_witness :
    (∀ r ∈ reactionVisibleQueryset [ReactionRow.mk 1 5 "like" 0]
        (ReactionUser.mk 5 false), r.user = 5) ∧
    (reactionVisibleQueryset [ReactionRow.mk 1 5 "like" 0]
        (ReactionUser.mk 9 true) = [ReactionRow.mk 1 5 "like" 0]) ∧
    (∀ r, r ∈ reactionVisibleQueryset [ReactionRow.mk 1 5 "like" 0]
        (ReactionUser.mk 5 false) →
      r ∈ reactionVisibleQueryset [ReactionRow.mk 1 5 "like" 0]
        (ReactionUser.mk 6 false) → False) := by
  refine ⟨?_, ?_, ?_⟩
  · exact (reaction_queryset_isolation [ReactionRow.mk 1 5 "like" 0]
      (ReactionUser.mk 5 false) (ReactionUser.mk 6 false)).1 rfl
  · exact (reaction_queryset_isolation [ReactionRow.mk 1 5 "like" 0]
      (ReactionUser.mk 9 true) (ReactionUser.mk 6 false)).2.1 rfl
  · exact (reaction_queryset_isolation [ReactionRow.mk 1 5 "like" 0]
      (ReactionUser.mk 5 false) (ReactionUser.mk 6 false)).2.2 rfl rfl
      (by decide)

end Pholium
